import Mathlib

/-!
Verification of the internal transfers system (khamiruf/internal_transfers_system_go).

The Go code is shallowly embedded: `shopspring/decimal` values (arbitrary-precision
decimals with exact `Add`/`Sub`) are modelled as rationals, the PostgreSQL tables
`accounts` and `transactions` as an association list and a list of records, the
`database/sql` transaction scope as explicit state passing in which scope-local
writes are discarded unless the commit succeeds, and low-level SQL failures (driver
errors, `pq` error codes) as an adversarial environment that may inject an error at
each store call site.
-/

namespace Transfers

/-- `shopspring/decimal` value: arbitrary-precision decimal, exact `Add`/`Sub`,
modelled as a rational number. -/
abbrev Dec := Rat

/-- The domain error variables of `internal/errors` (package `errors`). -/
inductive DomainError where
  | insufficientBalance
  | accountNotFound
  | sourceAccountNotFound
  | destinationAccountNotFound
  | accountAlreadyExists
  | invalidAmount
  | sameAccount
  | databaseError
  | validationFailed
  deriving DecidableEq, Repr

/-- `pq` error code names inspected by the repositories via `pqErr.Code.Name()`. -/
inductive PqCode where
  | uniqueViolation
  | checkConstraintViolation
  | foreignKeyViolation
  | serializationFailure
  | otherCode
  deriving DecidableEq, Repr

/-- A low-level error returned by a `database/sql` call: either a `*pq.Error`
with a code, or some other driver/connection error. -/
inductive SqlErr where
  | pq (c : PqCode)
  | generic
  deriving DecidableEq, Repr

/-- The errors observable from the embedded operations.  `domain e` is one of the
sentinel error variables of `internal/errors`; the remaining constructors are the
`fmt.Errorf("...: %w", err)` wrappings produced at each call site (for which
`errors.Is` against any sentinel is false). -/
inductive Err where
  | domain (e : DomainError)
  | getAccountFailed (e : SqlErr)
  | createAccountFailed (e : SqlErr)
  | updateBalanceFailed (e : SqlErr)
  | rowsAffectedFailed (e : SqlErr)
  | recordTransactionFailed (e : SqlErr)
  | beginFailed (e : SqlErr)
  | commitFailed (e : SqlErr)
  | rollbackFailed (rbErr : SqlErr) (orig : Err)
  deriving DecidableEq, Repr

/-- Whether an error is one of the sentinel domain errors declared in
`internal/errors` (true) or a wrapped low-level error (false). -/
def Err.isDomain : Err → Bool
  | .domain _ => true
  | _ => false

/-- `models.TransactionStatus`. -/
inductive TransactionStatus where
  | pending
  | complete
  | failed
  deriving DecidableEq, Repr

/-- `models.Transaction` (in-memory ledger entry).  `CreatedAt` is an abstract
timestamp. -/
structure Transaction where
  id : Int
  sourceAccountID : Int
  destinationAccountID : Int
  amount : Dec
  status : TransactionStatus
  createdAt : Int
  deriving DecidableEq, Repr

/-- `Transaction.Validate` from `internal/models/transaction.go`: amount must be
positive, then source and destination must differ.  `none` models a nil error. -/
def Transaction.Validate (t : Transaction) : Option DomainError :=
  if t.amount ≤ 0 then some .invalidAmount
  else if t.sourceAccountID = t.destinationAccountID then some .sameAccount
  else none

/-- `models.Account` as far as the transfer logic reads it. -/
structure Account where
  accountID : Int
  balance : Dec
  deriving DecidableEq, Repr

/-- `Account.HasSufficientBalance`: `a.Balance.GreaterThanOrEqual(amount)`. -/
def Account.HasSufficientBalance (a : Account) (amount : Dec) : Bool :=
  amount ≤ a.balance

/-- The `accounts` table: association list from `account_id` (primary key,
hence no duplicate keys on the reachable states) to `balance`. -/
abbrev Accounts := List (Int × Dec)

/-- Row lookup by primary key. -/
def lookupAccount : Accounts → Int → Option Dec
  | [], _ => none
  | (i, b) :: rest, id => if i = id then some b else lookupAccount rest id

/-- The SQL `UPDATE accounts SET balance = $1 WHERE account_id = $2`. -/
def setBalance : Accounts → Int → Dec → Accounts
  | [], _, _ => []
  | (i, b) :: rest, id, nb =>
    if i = id then (i, nb) :: rest else (i, b) :: setBalance rest id nb

/-- A row of the `transactions` table. -/
structure TxRecord where
  id : Int
  sourceAccountID : Int
  destinationAccountID : Int
  amount : Dec
  status : TransactionStatus
  createdAt : Int
  deriving DecidableEq, Repr

/-- The durable database state: the `accounts` and `transactions` tables and the
`SERIAL` sequence backing `transactions.id`. -/
structure DBState where
  accounts : Accounts
  transactions : List TxRecord
  nextTransactionID : Int
  deriving DecidableEq, Repr

/-- The empty database produced by the migration. -/
def initState : DBState := ⟨[], [], 1⟩

/-! ## Repository layer (`internal/repository`) -/

/-- A fault the environment may inject at an `UPDATE` call site: either the
`ExecContext` call fails with a SQL error, or `result.RowsAffected()` fails. -/
inductive UpdFault where
  | exec (e : SqlErr)
  | rowsAffected (e : SqlErr)
  deriving DecidableEq, Repr

/-- `PostgresAccountRepository.CreateAccount` (standalone, no ambient
transaction).  A negative initial balance is rejected before any I/O; the
`INSERT` on a duplicate primary key deterministically raises
`unique_violation`, mapped to `ErrAccountAlreadyExists`; an injected SQL
error is mapped through the same `switch` on the `pq` code name. -/
def CreateAccount (inj : Option SqlErr) (st : DBState) (accountID : Int)
    (initialBalance : Dec) : Except Err DBState :=
  if initialBalance < 0 then .error (.domain .invalidAmount)
  else
    match inj with
    | some (.pq .uniqueViolation) => .error (.domain .accountAlreadyExists)
    | some (.pq .checkConstraintViolation) => .error (.domain .invalidAmount)
    | some e => .error (.createAccountFailed e)
    | none =>
      if (lookupAccount st.accounts accountID).isSome then
        .error (.domain .accountAlreadyExists)
      else
        .ok { st with accounts := st.accounts ++ [(accountID, initialBalance)] }

/-- `PostgresAccountRepository.GetAccountWithTx`: row lookup inside the caller's
transaction; `sql.ErrNoRows` becomes `ErrAccountNotFound`, any other driver
error is wrapped (`failed to get account: %w`). -/
def GetAccountWithTx (inj : Option SqlErr) (st : DBState) (accountID : Int) :
    Except Err Account :=
  match inj with
  | some e => .error (.getAccountFailed e)
  | none =>
    match lookupAccount st.accounts accountID with
    | some b => .ok ⟨accountID, b⟩
    | none => .error (.domain .accountNotFound)

/-- `PostgresAccountRepository.UpdateBalanceWithTx`: rejects a negative new
balance before any I/O; an injected `check_constraint_violation` maps to
`ErrInvalidAmount` and any other exec error is wrapped; with zero rows
affected (no such account) it returns `ErrAccountNotFound`; otherwise the
transaction-local `accounts` table is updated. -/
def UpdateBalanceWithTx (inj : Option UpdFault) (st : DBState) (accountID : Int)
    (newBalance : Dec) : Except Err DBState :=
  if newBalance < 0 then .error (.domain .invalidAmount)
  else
    match inj with
    | some (.exec (.pq .checkConstraintViolation)) => .error (.domain .invalidAmount)
    | some (.exec e) => .error (.updateBalanceFailed e)
    | some (.rowsAffected e) => .error (.rowsAffectedFailed e)
    | none =>
      if (lookupAccount st.accounts accountID).isSome then
        .ok { st with accounts := setBalance st.accounts accountID newBalance }
      else
        .error (.domain .accountNotFound)

/-- `PostgresTransactionRepository.CreateTransactionWithTx`: revalidates the
transaction, inserts the row with `time.Now()`, and maps `pq` constraint
violations (`foreign_key_violation` → `ErrAccountNotFound`,
`check_constraint_violation` → `ErrInvalidAmount`); other exec errors are
wrapped.  A missing referenced account deterministically raises the
foreign-key violation.  Modelled from the spec: the variant declared in
`repository.TransactionRepository` returns the created record with the
generated id and `created_at` timestamp (its implementation is absent from
the sources; per the spec, `recordTransfer` inserts the transaction row and
`CreateTransfer` yields `{id, sourceId, destId, amount, createdAt}`). -/
def CreateTransactionWithTx (inj : Option SqlErr) (st : DBState) (now : Int)
    (t : Transaction) : Except Err (Transaction × DBState) :=
  match t.Validate with
  | some e => .error (.domain e)
  | none =>
    match inj with
    | some (.pq .foreignKeyViolation) => .error (.domain .accountNotFound)
    | some (.pq .checkConstraintViolation) => .error (.domain .invalidAmount)
    | some e => .error (.recordTransactionFailed e)
    | none =>
      if (lookupAccount st.accounts t.sourceAccountID).isSome
          ∧ (lookupAccount st.accounts t.destinationAccountID).isSome then
        let row : TxRecord :=
          ⟨st.nextTransactionID, t.sourceAccountID, t.destinationAccountID,
            t.amount, t.status, now⟩
        .ok (⟨row.id, row.sourceAccountID, row.destinationAccountID, row.amount,
              t.status, row.createdAt⟩,
             { st with transactions := st.transactions ++ [row],
                       nextTransactionID := st.nextTransactionID + 1 })
      else
        .error (.domain .accountNotFound)

/-! ## Service layer (`internal/service`) -/

/-- `dto.CreateAccountRequest` as consumed by the account service. -/
structure CreateAccountRequest where
  accountID : Int
  initialBalance : Dec
  deriving DecidableEq, Repr

/-- `dto.CreateTransactionRequest` as consumed by the transaction service. -/
structure CreateTransactionRequest where
  sourceAccountID : Int
  destinationAccountID : Int
  amount : Dec
  deriving DecidableEq, Repr

/-- `dto.TransactionResponse` built by `CreateTransaction` from the created
record. -/
structure TransactionResponse where
  id : Int
  sourceAccountID : Int
  destinationAccountID : Int
  amount : Dec
  createdAt : Int
  deriving DecidableEq, Repr

/-- Which low-level SQL failures, if any, the environment injects at each call
site of one `CreateTransaction` run. -/
structure Env where
  beginErr : Option SqlErr
  getSourceErr : Option SqlErr
  getDestErr : Option SqlErr
  updSourceFault : Option UpdFault
  updDestFault : Option UpdFault
  insertErr : Option SqlErr
  commitErr : Option SqlErr
  rollbackErr : Option SqlErr
  deriving DecidableEq, Repr

/-- The fault-free environment: every store call succeeds at the SQL level. -/
def Env.happy : Env := ⟨none, none, none, none, none, none, none, none⟩

/-- `transactionService.withTransaction`: begins a serializable transaction,
runs `fn` against the transaction-local state, rolls back (discarding the
local writes) if `fn` fails, and otherwise commits.  A failed commit also
leaves the durable state unchanged; a failed rollback wraps both errors. -/
def withTransaction {α : Type} (beginErr commitErr rollbackErr : Option SqlErr)
    (st : DBState) (fn : DBState → Except Err (α × DBState)) :
    Except Err α × DBState :=
  match beginErr with
  | some e => (.error (.beginFailed e), st)
  | none =>
    match fn st with
    | .error e =>
      match rollbackErr with
      | some rb => (.error (.rollbackFailed rb e), st)
      | none => (.error e, st)
    | .ok (a, st1) =>
      match commitErr with
      | some e => (.error (.commitFailed e), st)
      | none => (.ok a, st1)

/-- The closure passed by `transactionService.CreateTransaction` to
`withTransaction`: fetch source (absence mapped to
`ErrSourceAccountNotFound`), check `HasSufficientBalance`, fetch destination
(absence mapped to `ErrDestinationAccountNotFound`), compute the exact new
balances, update source then destination, mark the transaction `complete`,
record it, and build the response DTO from the created record. -/
def transferBody (env : Env) (now : Int) (req : CreateTransactionRequest)
    (t : Transaction) (st : DBState) :
    Except Err (TransactionResponse × DBState) :=
  match GetAccountWithTx env.getSourceErr st req.sourceAccountID with
  | .error e =>
    if e = .domain .accountNotFound then .error (.domain .sourceAccountNotFound)
    else .error e
  | .ok sourceAccount =>
    if ¬ sourceAccount.HasSufficientBalance req.amount then
      .error (.domain .insufficientBalance)
    else
      match GetAccountWithTx env.getDestErr st req.destinationAccountID with
      | .error e =>
        if e = .domain .accountNotFound then
          .error (.domain .destinationAccountNotFound)
        else .error e
      | .ok destAccount =>
        let sourceNewBalance := sourceAccount.balance - req.amount
        let destNewBalance := destAccount.balance + req.amount
        match UpdateBalanceWithTx env.updSourceFault st req.sourceAccountID
            sourceNewBalance with
        | .error e => .error e
        | .ok st1 =>
          match UpdateBalanceWithTx env.updDestFault st1 req.destinationAccountID
              destNewBalance with
          | .error e => .error e
          | .ok st2 =>
            match CreateTransactionWithTx env.insertErr st2 now
                { t with status := .complete } with
            | .error e => .error e
            | .ok (createdTx, st3) =>
              .ok (⟨createdTx.id, createdTx.sourceAccountID,
                    createdTx.destinationAccountID, createdTx.amount,
                    createdTx.createdAt⟩, st3)

/-- `transactionService.CreateTransaction`: builds the pending in-memory
transaction from the request, validates it before any I/O, and runs the
transfer inside `withTransaction`.  The pair is the returned value and the
durable database state after the call. -/
def CreateTransaction (env : Env) (now : Int) (st : DBState)
    (req : CreateTransactionRequest) :
    Except Err TransactionResponse × DBState :=
  let t : Transaction :=
    ⟨0, req.sourceAccountID, req.destinationAccountID, req.amount, .pending, 0⟩
  match t.Validate with
  | some e => (.error (.domain e), st)
  | none => withTransaction env.beginErr env.commitErr env.rollbackErr st
      (transferBody env now req t)

/-- `accountService.CreateAccount`: rejects a negative initial balance, then
delegates to the repository.  The pair is the returned error (if any) and the
durable state after the call. -/
def ServiceCreateAccount (inj : Option SqlErr) (st : DBState)
    (req : CreateAccountRequest) : Except Err Unit × DBState :=
  if req.initialBalance < 0 then (.error (.domain .invalidAmount), st)
  else
    match CreateAccount inj st req.accountID req.initialBalance with
    | .error e => (.error e, st)
    | .ok st1 => (.ok (), st1)

/-- `n` repeated calls of `accountService.CreateAccount` with the same request
and injected fault, threading the durable state. -/
def repeatCreateAccount (inj : Option SqlErr) (req : CreateAccountRequest) :
    Nat → DBState → DBState
  | 0, st => st
  | n + 1, st => repeatCreateAccount inj req n (ServiceCreateAccount inj st req).2

/-- A standalone scoped balance update, committed on its own: the coordinator
opens a scope, calls `UpdateBalanceWithTx`, and commits or rolls back exactly
as `withTransaction` does for a transfer. -/
def updateBalanceRun (beginErr commitErr rollbackErr : Option SqlErr)
    (fault : Option UpdFault) (st : DBState) (id : Int) (b : Dec) :
    Except Err Unit × DBState :=
  withTransaction beginErr commitErr rollbackErr st (fun s =>
    match UpdateBalanceWithTx fault s id b with
    | .error e => .error e
    | .ok s1 => .ok ((), s1))

/-- One observable operation against the durable store: an account creation, a
transfer, or a standalone scoped balance update, each under an arbitrary
injected-fault environment. -/
inductive Step : DBState → DBState → Prop where
  | createAccount (st : DBState) (inj : Option SqlErr)
      (req : CreateAccountRequest) :
      Step st (ServiceCreateAccount inj st req).2
  | createTransaction (st : DBState) (env : Env) (now : Int)
      (req : CreateTransactionRequest) :
      Step st (CreateTransaction env now st req).2
  | updateBalance (st : DBState) (beginErr commitErr rollbackErr : Option SqlErr)
      (fault : Option UpdFault) (id : Int) (b : Dec) :
      Step st (updateBalanceRun beginErr commitErr rollbackErr fault st id b).2

/-- A state reachable from the freshly migrated database by any sequence of
operations, successful or failed. -/
def Reachable (st : DBState) : Prop := Relation.ReflTransGen Step initState st

/-- The ledger invariant: every balance is non-negative and every persisted
transaction row is `complete`, has a positive amount, and has distinct
endpoints. -/
def Inv (st : DBState) : Prop :=
  (∀ p ∈ st.accounts, 0 ≤ p.2) ∧
  (∀ r ∈ st.transactions, r.status = .complete ∧ 0 < r.amount ∧
     r.sourceAccountID ≠ r.destinationAccountID)

/-! ## Concurrency model -/

/-- The environment of a transfer scope that the store's scheduler chooses to
abort: every statement succeeds, but the commit is rejected with a
serialization failure. -/
def Env.conflictAtCommit : Env :=
  { Env.happy with commitErr := some (.pq .serializationFailure) }

/-- Whether a transfer call committed. -/
def committed (r : Except Err TransactionResponse) : Bool :=
  match r with
  | .ok _ => true
  | .error _ => false

/-- Whether a failed transfer surfaced either the insufficient-balance domain
error or the serialization conflict reported at commit. -/
def insufficientOrConflict (r : Except Err TransactionResponse) : Bool :=
  match r with
  | .error (.domain .insufficientBalance) => true
  | .error (.commitFailed (.pq .serializationFailure)) => true
  | _ => false

/-- Modelled from the spec: the store's serializable-isolation scheduler, which
is not part of these sources (it lives in the excluded persistence engine).
Per the spec, two concurrent transfer scopes behave as if executed in some
serial order, except that the store may instead abort one of the two with a
serialization failure — surfaced by the coordinator as the wrapped commit
error — while the other executes alone.  The list enumerates the possible
outcomes of two concurrent `CreateTransaction` calls: each entry is the result
of the first call, the result of the second call, and the final durable
state. -/
def concurrentOutcomes (now : Int) (st : DBState)
    (reqA reqB : CreateTransactionRequest) :
    List (Except Err TransactionResponse × Except Err TransactionResponse × DBState) :=
  [(let ra := CreateTransaction Env.happy now st reqA
    let rb := CreateTransaction Env.happy now ra.2 reqB
    (ra.1, rb.1, rb.2)),
   (let rb := CreateTransaction Env.happy now st reqB
    let ra := CreateTransaction Env.happy now rb.2 reqA
    (ra.1, rb.1, ra.2)),
   (let ra := CreateTransaction Env.conflictAtCommit now st reqA
    let rb := CreateTransaction Env.happy now ra.2 reqB
    (ra.1, rb.1, rb.2)),
   (let rb := CreateTransaction Env.conflictAtCommit now st reqB
    let ra := CreateTransaction Env.happy now rb.2 reqA
    (ra.1, rb.1, ra.2))]

/-- The database after the spec's first scenario: create account 1 with
balance 100, create account 2 with balance 0, then transfer 40 from 1 to 2,
all fault-free. -/
def scenario1State : DBState :=
  (CreateTransaction Env.happy 7
    (ServiceCreateAccount none
      (ServiceCreateAccount none initState ⟨1, 100⟩).2 ⟨2, 0⟩).2
    ⟨1, 2, 40⟩).2

/-! ## Association-list lemmas -/

theorem lookupAccount_mem {as : Accounts} {id : Int} {b : Dec}
    (h : lookupAccount as id = some b) : (id, b) ∈ as := by
  induction as with
  | nil => simp [lookupAccount] at h
  | cons p rest ih =>
    obtain ⟨i, v⟩ := p
    by_cases hi : i = id
    · subst hi
      simp [lookupAccount] at h
      subst h
      exact List.mem_cons_self _ _
    · simp [lookupAccount, hi] at h
      exact List.mem_cons_of_mem _ (ih h)

theorem lookupAccount_setBalance_self {as : Accounts} {id : Int} {nb : Dec}
    (h : (lookupAccount as id).isSome) :
    lookupAccount (setBalance as id nb) id = some nb := by
  induction as with
  | nil => simp [lookupAccount] at h
  | cons p rest ih =>
    obtain ⟨i, v⟩ := p
    by_cases hi : i = id
    · subst hi
      simp [setBalance, lookupAccount]
    · simp [lookupAccount, hi] at h
      simp [setBalance, lookupAccount, hi, ih h]

theorem lookupAccount_setBalance_ne {as : Accounts} {id j : Int} {nb : Dec}
    (h : j ≠ id) :
    lookupAccount (setBalance as id nb) j = lookupAccount as j := by
  induction as with
  | nil => simp [setBalance]
  | cons p rest ih =>
    obtain ⟨i, v⟩ := p
    by_cases hi : i = id
    · subst hi
      have : ¬ i = j := fun hc => h hc.symm
      simp [setBalance, lookupAccount, this]
    · by_cases hj : i = j
      · subst hj
        simp [setBalance, lookupAccount, hi]
      · simp [setBalance, lookupAccount, hi, hj, ih]

theorem mem_setBalance {as : Accounts} {id : Int} {nb : Dec} {p : Int × Dec}
    (h : p ∈ setBalance as id nb) : p.2 = nb ∨ p ∈ as := by
  induction as with
  | nil => simp [setBalance] at h
  | cons q rest ih =>
    obtain ⟨i, v⟩ := q
    by_cases hi : i = id
    · subst hi
      simp [setBalance] at h
      rcases h with h | h
      · left; rw [h]
      · right; exact List.mem_cons_of_mem _ h
    · simp [setBalance, hi] at h
      rcases h with h | h
      · right; rw [h]; exact List.mem_cons_self _ _
      · rcases ih h with h1 | h1
        · left; exact h1
        · right; exact List.mem_cons_of_mem _ h1

/-! ## Characterization lemmas for the embedded operations -/

theorem Validate_none {t : Transaction} (h : t.Validate = none) :
    0 < t.amount ∧ t.sourceAccountID ≠ t.destinationAccountID := by
  unfold Transaction.Validate at h
  by_cases h1 : t.amount ≤ 0
  · simp [h1] at h
  · by_cases h2 : t.sourceAccountID = t.destinationAccountID
    · simp [h1, h2] at h
    · exact ⟨lt_of_not_le h1, h2⟩

theorem GetAccountWithTx_ok {inj : Option SqlErr} {st : DBState} {id : Int}
    {acc : Account} (h : GetAccountWithTx inj st id = .ok acc) :
    inj = none ∧ lookupAccount st.accounts id = some acc.balance
      ∧ acc = ⟨id, acc.balance⟩ := by
  cases inj with
  | some e => simp [GetAccountWithTx] at h
  | none =>
    cases hl : lookupAccount st.accounts id with
    | none => simp [GetAccountWithTx, hl] at h
    | some b =>
      simp only [GetAccountWithTx, hl, Except.ok.injEq] at h
      subst h
      exact ⟨rfl, rfl, rfl⟩

theorem UpdateBalanceWithTx_ok {inj : Option UpdFault} {st : DBState} {id : Int}
    {nb : Dec} {st1 : DBState} (h : UpdateBalanceWithTx inj st id nb = .ok st1) :
    0 ≤ nb ∧ inj = none ∧ (lookupAccount st.accounts id).isSome
      ∧ st1 = { st with accounts := setBalance st.accounts id nb } := by
  unfold UpdateBalanceWithTx at h
  by_cases hn : nb < 0
  · simp [hn] at h
  · simp only [hn, if_false] at h
    cases inj with
    | some f =>
      cases f with
      | exec e =>
        cases e with
        | pq c => cases c <;> simp at h
        | generic => simp at h
      | rowsAffected e => simp at h
    | none =>
      by_cases hl : (lookupAccount st.accounts id).isSome
      · rw [if_pos hl] at h
        simp only [Except.ok.injEq] at h
        subst h
        exact ⟨le_of_not_lt hn, rfl, hl, rfl⟩
      · rw [if_neg hl] at h
        simp at h

theorem CreateTransactionWithTx_ok {inj : Option SqlErr} {st : DBState}
    {now : Int} {t : Transaction} {ct : Transaction} {st' : DBState}
    (h : CreateTransactionWithTx inj st now t = .ok (ct, st')) :
    t.Validate = none ∧ inj = none
      ∧ (lookupAccount st.accounts t.sourceAccountID).isSome
      ∧ (lookupAccount st.accounts t.destinationAccountID).isSome
      ∧ ct = ⟨st.nextTransactionID, t.sourceAccountID, t.destinationAccountID,
              t.amount, t.status, now⟩
      ∧ st' = { st with
                transactions := st.transactions ++
                  [⟨st.nextTransactionID, t.sourceAccountID,
                    t.destinationAccountID, t.amount, t.status, now⟩],
                nextTransactionID := st.nextTransactionID + 1 } := by
  unfold CreateTransactionWithTx at h
  cases hv : t.Validate with
  | some e => rw [hv] at h; simp at h
  | none =>
    rw [hv] at h
    cases inj with
    | some e =>
      cases e with
      | pq c => cases c <;> simp at h
      | generic => simp at h
    | none =>
      by_cases hfk : (lookupAccount st.accounts t.sourceAccountID).isSome
          ∧ (lookupAccount st.accounts t.destinationAccountID).isSome
      · rw [if_pos hfk] at h
        simp only [Except.ok.injEq, Prod.mk.injEq] at h
        obtain ⟨h1, h2⟩ := h
        subst h1
        subst h2
        exact ⟨rfl, rfl, hfk.1, hfk.2, rfl, rfl⟩
      · rw [if_neg hfk] at h
        simp at h

theorem withTransaction_fst_error {α : Type}
    {beginErr commitErr rollbackErr : Option SqlErr} {st : DBState}
    {fn : DBState → Except Err (α × DBState)} {e : Err}
    (h : (withTransaction beginErr commitErr rollbackErr st fn).1 = .error e) :
    (withTransaction beginErr commitErr rollbackErr st fn).2 = st := by
  unfold withTransaction at h ⊢
  cases beginErr with
  | some b => rfl
  | none =>
    cases hfn : fn st with
    | error e1 => cases rollbackErr <;> rfl
    | ok p =>
      obtain ⟨a1, st1⟩ := p
      cases commitErr with
      | some c => rfl
      | none =>
        simp only [hfn] at h
        simp at h

theorem withTransaction_ok {α : Type}
    {beginErr commitErr rollbackErr : Option SqlErr} {st : DBState}
    {fn : DBState → Except Err (α × DBState)} {a : α}
    (h : (withTransaction beginErr commitErr rollbackErr st fn).1 = .ok a) :
    beginErr = none ∧ commitErr = none
      ∧ fn st = .ok (a, (withTransaction beginErr commitErr rollbackErr st fn).2) := by
  unfold withTransaction at h ⊢
  cases beginErr with
  | some b => simp at h
  | none =>
    cases hfn : fn st with
    | error e1 =>
      simp only [hfn] at h
      cases rollbackErr <;> simp at h
    | ok p =>
      obtain ⟨a1, st1⟩ := p
      simp only [hfn] at h
      cases commitErr with
      | some c => simp at h
      | none =>
        simp at h
        subst h
        exact ⟨rfl, rfl, rfl⟩

theorem Validate_error {t : Transaction} {d : DomainError}
    (h : t.Validate = some d) : d = .invalidAmount ∨ d = .sameAccount := by
  unfold Transaction.Validate at h
  by_cases h1 : t.amount ≤ 0
  · simp [h1] at h
    exact Or.inl h.symm
  · by_cases h2 : t.sourceAccountID = t.destinationAccountID
    · simp [h1, h2] at h
      exact Or.inr h.symm
    · simp [h1, h2] at h

theorem GetAccountWithTx_error {inj : Option SqlErr} {st : DBState} {id : Int}
    {e : Err} (h : GetAccountWithTx inj st id = .error e) :
    e = .domain .accountNotFound ∨ ∃ s, e = .getAccountFailed s := by
  cases inj with
  | some s =>
    simp [GetAccountWithTx] at h
    exact Or.inr ⟨s, h.symm⟩
  | none =>
    cases hl : lookupAccount st.accounts id with
    | some b => simp [GetAccountWithTx, hl] at h
    | none =>
      simp [GetAccountWithTx, hl] at h
      exact Or.inl h.symm

theorem UpdateBalanceWithTx_error {inj : Option UpdFault} {st : DBState}
    {id : Int} {nb : Dec} {e : Err}
    (h : UpdateBalanceWithTx inj st id nb = .error e) :
    e = .domain .invalidAmount ∨ e = .domain .accountNotFound
      ∨ (∃ s, e = .updateBalanceFailed s) ∨ ∃ s, e = .rowsAffectedFailed s := by
  unfold UpdateBalanceWithTx at h
  by_cases hn : nb < 0
  · simp [hn] at h
    exact Or.inl h.symm
  · simp only [hn, if_false] at h
    cases inj with
    | some f =>
      cases f with
      | exec s =>
        cases s with
        | pq c =>
          cases c <;> simp at h <;>
            first
              | exact Or.inl h.symm
              | exact Or.inr (Or.inr (Or.inl ⟨_, h.symm⟩))
        | generic => simp at h; exact Or.inr (Or.inr (Or.inl ⟨_, h.symm⟩))
      | rowsAffected s =>
        simp at h
        exact Or.inr (Or.inr (Or.inr ⟨_, h.symm⟩))
    | none =>
      by_cases hl : (lookupAccount st.accounts id).isSome
      · rw [if_pos hl] at h
        simp at h
      · rw [if_neg hl] at h
        simp at h
        exact Or.inr (Or.inl h.symm)

theorem CreateTransactionWithTx_error {inj : Option SqlErr} {st : DBState}
    {now : Int} {t : Transaction} {e : Err}
    (h : CreateTransactionWithTx inj st now t = .error e) :
    e = .domain .invalidAmount ∨ e = .domain .sameAccount
      ∨ e = .domain .accountNotFound ∨ ∃ s, e = .recordTransactionFailed s := by
  unfold CreateTransactionWithTx at h
  cases hv : t.Validate with
  | some d =>
    rw [hv] at h
    simp at h
    rcases Validate_error hv with h1 | h1 <;> rw [h1] at h
    · exact Or.inl h.symm
    · exact Or.inr (Or.inl h.symm)
  | none =>
    rw [hv] at h
    cases inj with
    | some s =>
      cases s with
      | pq c =>
        cases c <;> simp at h <;>
          first
            | exact Or.inl h.symm
            | exact Or.inr (Or.inr (Or.inl h.symm))
            | exact Or.inr (Or.inr (Or.inr ⟨_, h.symm⟩))
      | generic =>
        simp at h
        exact Or.inr (Or.inr (Or.inr ⟨_, h.symm⟩))
    | none =>
      by_cases hfk : (lookupAccount st.accounts t.sourceAccountID).isSome
          ∧ (lookupAccount st.accounts t.destinationAccountID).isSome
      · rw [if_pos hfk] at h
        simp at h
      · rw [if_neg hfk] at h
        simp at h
        exact Or.inr (Or.inr (Or.inl h.symm))

theorem withTransaction_fst_error_cases {α : Type}
    {beginErr commitErr rollbackErr : Option SqlErr} {st : DBState}
    {fn : DBState → Except Err (α × DBState)} {e : Err}
    (h : (withTransaction beginErr commitErr rollbackErr st fn).1 = .error e) :
    (∃ s, e = .beginFailed s) ∨ (∃ s orig, e = .rollbackFailed s orig)
      ∨ (∃ s, e = .commitFailed s) ∨ fn st = .error e := by
  unfold withTransaction at h
  cases beginErr with
  | some b =>
    simp at h
    exact Or.inl ⟨b, h.symm⟩
  | none =>
    cases hfn : fn st with
    | error e1 =>
      simp only [hfn] at h
      cases rollbackErr with
      | some rb =>
        simp at h
        exact Or.inr (Or.inl ⟨rb, e1, h.symm⟩)
      | none =>
        simp at h
        subst h
        exact Or.inr (Or.inr (Or.inr rfl))
    | ok p =>
      obtain ⟨a1, st1⟩ := p
      simp only [hfn] at h
      cases commitErr with
      | some c =>
        simp at h
        exact Or.inr (Or.inr (Or.inl ⟨c, h.symm⟩))
      | none => simp at h

theorem transferBody_error_insufficient {env : Env} {now : Int}
    {req : CreateTransactionRequest} {t : Transaction} {st : DBState} {bs : Dec}
    (hg : env.getSourceErr = none)
    (hs : lookupAccount st.accounts req.sourceAccountID = some bs)
    (h : transferBody env now req t st = .error (.domain .insufficientBalance)) :
    bs < req.amount := by
  simp only [transferBody] at h
  cases hgs : GetAccountWithTx env.getSourceErr st req.sourceAccountID with
  | error e =>
    rw [hg] at hgs
    simp [GetAccountWithTx, hs] at hgs
  | ok sourceAccount =>
    have hbal : sourceAccount.balance = bs := by
      have hgs2 := hgs
      rw [hg] at hgs2
      simp only [GetAccountWithTx, hs, Except.ok.injEq] at hgs2
      rw [← hgs2]
    simp only [hgs] at h
    by_cases hsb : sourceAccount.HasSufficientBalance req.amount
    · exfalso
      rw [if_neg (not_not_intro hsb)] at h
      cases hgd : GetAccountWithTx env.getDestErr st req.destinationAccountID with
      | error e =>
        simp only [hgd] at h
        rcases GetAccountWithTx_error hgd with h1 | ⟨s, h1⟩ <;> subst h1 <;>
          simp at h
      | ok destAccount =>
        simp only [hgd] at h
        cases hu1 : UpdateBalanceWithTx env.updSourceFault st req.sourceAccountID
            (sourceAccount.balance - req.amount) with
        | error e =>
          simp only [hu1] at h
          rcases UpdateBalanceWithTx_error hu1 with h1 | h1 | ⟨s, h1⟩ | ⟨s, h1⟩ <;>
            subst h1 <;> simp at h
        | ok st1 =>
          simp only [hu1] at h
          cases hu2 : UpdateBalanceWithTx env.updDestFault st1
              req.destinationAccountID (destAccount.balance + req.amount) with
          | error e =>
            simp only [hu2] at h
            rcases UpdateBalanceWithTx_error hu2 with h1 | h1 | ⟨s, h1⟩ | ⟨s, h1⟩ <;>
              subst h1 <;> simp at h
          | ok st2 =>
            simp only [hu2] at h
            cases hct : CreateTransactionWithTx env.insertErr st2 now
                { t with status := .complete } with
            | error e =>
              simp only [hct] at h
              rcases CreateTransactionWithTx_error hct with h1 | h1 | h1 | ⟨s, h1⟩ <;>
                subst h1 <;> simp at h
            | ok p =>
              obtain ⟨ct, st3⟩ := p
              simp only [hct] at h
              simp at h
    · simp only [Account.HasSufficientBalance, decide_eq_true_eq] at hsb
      rw [hbal] at hsb
      exact lt_of_not_le hsb

theorem transferBody_ok {env : Env} {now : Int} {req : CreateTransactionRequest}
    {t : Transaction} {st : DBState} {resp : TransactionResponse} {st' : DBState}
    (h : transferBody env now req t st = .ok (resp, st')) :
    ∃ bs bd,
      lookupAccount st.accounts req.sourceAccountID = some bs
      ∧ lookupAccount st.accounts req.destinationAccountID = some bd
      ∧ req.amount ≤ bs
      ∧ Transaction.Validate { t with status := .complete } = none
      ∧ resp = ⟨st.nextTransactionID, t.sourceAccountID, t.destinationAccountID,
                t.amount, now⟩
      ∧ st' = ⟨setBalance (setBalance st.accounts req.sourceAccountID
                  (bs - req.amount)) req.destinationAccountID (bd + req.amount),
               st.transactions ++ [⟨st.nextTransactionID, t.sourceAccountID,
                 t.destinationAccountID, t.amount, .complete, now⟩],
               st.nextTransactionID + 1⟩ := by
  simp only [transferBody] at h
  cases hgs : GetAccountWithTx env.getSourceErr st req.sourceAccountID with
  | error e => simp only [hgs] at h; split at h <;> simp at h
  | ok sourceAccount =>
    simp only [hgs] at h
    obtain ⟨-, hlsrc, -⟩ := GetAccountWithTx_ok hgs
    by_cases hsb : sourceAccount.HasSufficientBalance req.amount
    · rw [if_neg (not_not_intro hsb)] at h
      cases hgd : GetAccountWithTx env.getDestErr st req.destinationAccountID with
      | error e => simp only [hgd] at h; split at h <;> simp at h
      | ok destAccount =>
        simp only [hgd] at h
        obtain ⟨-, hldst, -⟩ := GetAccountWithTx_ok hgd
        cases hu1 : UpdateBalanceWithTx env.updSourceFault st req.sourceAccountID
            (sourceAccount.balance - req.amount) with
        | error e => simp only [hu1] at h; simp at h
        | ok st1 =>
          simp only [hu1] at h
          obtain ⟨-, -, -, hst1⟩ := UpdateBalanceWithTx_ok hu1
          cases hu2 : UpdateBalanceWithTx env.updDestFault st1
              req.destinationAccountID (destAccount.balance + req.amount) with
          | error e => simp only [hu2] at h; simp at h
          | ok st2 =>
            simp only [hu2] at h
            obtain ⟨-, -, -, hst2⟩ := UpdateBalanceWithTx_ok hu2
            cases hct : CreateTransactionWithTx env.insertErr st2 now
                { t with status := .complete } with
            | error e => simp only [hct] at h; simp at h
            | ok p =>
              obtain ⟨ct, st3⟩ := p
              simp only [hct] at h
              obtain ⟨hv, -, -, -, hctq, hst3⟩ := CreateTransactionWithTx_ok hct
              simp only [Except.ok.injEq, Prod.mk.injEq] at h
              obtain ⟨hresp, hst'⟩ := h
              subst hst1
              subst hst2
              subst hctq
              subst hst3
              refine ⟨sourceAccount.balance, destAccount.balance, hlsrc, hldst,
                ?_, hv, ?_, ?_⟩
              · simpa [Account.HasSufficientBalance] using hsb
              · rw [← hresp]
              · rw [← hst']
    · rw [if_pos hsb] at h
      simp at h

theorem CreateTransaction_fst_error {env : Env} {now : Int} {st : DBState}
    {req : CreateTransactionRequest} {e : Err}
    (h : (CreateTransaction env now st req).1 = .error e) :
    (CreateTransaction env now st req).2 = st := by
  simp only [CreateTransaction] at h ⊢
  cases hv : Transaction.Validate ⟨0, req.sourceAccountID,
      req.destinationAccountID, req.amount, .pending, 0⟩ with
  | some e1 => simp only [hv]
  | none =>
    simp only [hv] at h ⊢
    exact withTransaction_fst_error h

theorem CreateTransaction_ok_spec {env : Env} {now : Int} {st : DBState}
    {req : CreateTransactionRequest} {resp : TransactionResponse}
    (h : (CreateTransaction env now st req).1 = .ok resp) :
    0 < req.amount ∧ req.sourceAccountID ≠ req.destinationAccountID
      ∧ env.beginErr = none ∧ env.commitErr = none
      ∧ ∃ bs bd,
          lookupAccount st.accounts req.sourceAccountID = some bs
          ∧ lookupAccount st.accounts req.destinationAccountID = some bd
          ∧ req.amount ≤ bs
          ∧ resp = ⟨st.nextTransactionID, req.sourceAccountID,
                    req.destinationAccountID, req.amount, now⟩
          ∧ (CreateTransaction env now st req).2 =
              ⟨setBalance (setBalance st.accounts req.sourceAccountID
                  (bs - req.amount)) req.destinationAccountID (bd + req.amount),
                st.transactions ++ [⟨st.nextTransactionID, req.sourceAccountID,
                  req.destinationAccountID, req.amount, .complete, now⟩],
                st.nextTransactionID + 1⟩ := by
  simp only [CreateTransaction] at h ⊢
  cases hv : Transaction.Validate ⟨0, req.sourceAccountID,
      req.destinationAccountID, req.amount, .pending, 0⟩ with
  | some e1 => simp only [hv] at h; simp at h
  | none =>
    simp only [hv] at h ⊢
    obtain ⟨hb, hc, hfn⟩ := withTransaction_ok h
    obtain ⟨bs, bd, hlsrc, hldst, hba, hval, hresp, hst⟩ := transferBody_ok hfn
    obtain ⟨hpos, hne⟩ := Validate_none hv
    exact ⟨hpos, hne, hb, hc, bs, bd, hlsrc, hldst, hba, hresp, hst⟩

theorem CreateAccount_ok {inj : Option SqlErr} {st : DBState} {id : Int}
    {bal : Dec} {st1 : DBState} (h : CreateAccount inj st id bal = .ok st1) :
    0 ≤ bal ∧ inj = none ∧ lookupAccount st.accounts id = none
      ∧ st1 = { st with accounts := st.accounts ++ [(id, bal)] } := by
  unfold CreateAccount at h
  by_cases hn : bal < 0
  · simp [hn] at h
  · simp only [hn, if_false] at h
    cases inj with
    | some e =>
      cases e with
      | pq c => cases c <;> simp at h
      | generic => simp at h
    | none =>
      cases hl : lookupAccount st.accounts id with
      | some b => simp only [hl, Option.isSome_some, if_true] at h; simp at h
      | none =>
        simp only [hl, Option.isSome_none, Bool.false_eq_true, if_false,
          Except.ok.injEq] at h
        subst h
        exact ⟨le_of_not_lt hn, rfl, rfl, rfl⟩

/-! ## Invariant preservation -/

theorem ServiceCreateAccount_inv {inj : Option SqlErr} {st : DBState}
    {req : CreateAccountRequest} (hInv : Inv st) :
    Inv (ServiceCreateAccount inj st req).2 := by
  unfold ServiceCreateAccount
  by_cases hn : req.initialBalance < 0
  · simpa [hn] using hInv
  · simp only [hn, if_false]
    cases hca : CreateAccount inj st req.accountID req.initialBalance with
    | error e => exact hInv
    | ok st1 =>
      obtain ⟨hb, -, -, hst1⟩ := CreateAccount_ok hca
      subst hst1
      refine ⟨?_, hInv.2⟩
      intro p hp
      rcases List.mem_append.mp hp with hp1 | hp1
      · exact hInv.1 p hp1
      · simp at hp1
        rw [hp1]
        exact hb

theorem CreateTransaction_inv {env : Env} {now : Int} {st : DBState}
    {req : CreateTransactionRequest} (hInv : Inv st) :
    Inv (CreateTransaction env now st req).2 := by
  cases hr : (CreateTransaction env now st req).1 with
  | error e => rw [CreateTransaction_fst_error hr]; exact hInv
  | ok resp =>
    obtain ⟨hpos, hne, -, -, bs, bd, hlsrc, hldst, hba, -, hst⟩ :=
      CreateTransaction_ok_spec hr
    rw [hst]
    constructor
    · intro p hp
      rcases mem_setBalance hp with h1 | h1
      · rw [h1]
        have hbd : 0 ≤ bd := hInv.1 _ (lookupAccount_mem hldst)
        linarith
      · rcases mem_setBalance h1 with h2 | h2
        · rw [h2]
          linarith
        · exact hInv.1 p h2
    · intro r hr1
      rcases List.mem_append.mp hr1 with h1 | h1
      · exact hInv.2 r h1
      · simp at h1
        rw [h1]
        exact ⟨rfl, hpos, hne⟩

theorem updateBalanceRun_inv {beginErr commitErr rollbackErr : Option SqlErr}
    {fault : Option UpdFault} {st : DBState} {id : Int} {b : Dec}
    (hInv : Inv st) :
    Inv (updateBalanceRun beginErr commitErr rollbackErr fault st id b).2 := by
  cases hr : (updateBalanceRun beginErr commitErr rollbackErr fault st id b).1 with
  | error e =>
    rw [updateBalanceRun] at hr ⊢
    rw [withTransaction_fst_error hr]
    exact hInv
  | ok u =>
    rw [updateBalanceRun] at hr ⊢
    obtain ⟨-, -, hfn⟩ := withTransaction_ok hr
    cases hu : UpdateBalanceWithTx fault st id b with
    | error e => rw [hu] at hfn; simp at hfn
    | ok s1 =>
      rw [hu] at hfn
      simp only [Except.ok.injEq, Prod.mk.injEq] at hfn
      obtain ⟨hnb, -, -, hs1⟩ := UpdateBalanceWithTx_ok hu
      rw [← hfn.2, hs1]
      refine ⟨?_, hInv.2⟩
      intro p hp
      rcases mem_setBalance hp with h1 | h1
      · rw [h1]; exact hnb
      · exact hInv.1 p h1

theorem Step_inv {st st' : DBState} (h : Step st st') (hInv : Inv st) :
    Inv st' := by
  cases h with
  | createAccount inj req => exact ServiceCreateAccount_inv hInv
  | createTransaction env now req => exact CreateTransaction_inv hInv
  | updateBalance b c r f id bal => exact updateBalanceRun_inv hInv

theorem reachable_inv {st : DBState} (h : Reachable st) : Inv st := by
  induction h with
  | refl => exact ⟨by simp [initState], by simp [initState]⟩
  | tail h1 h2 ih => exact Step_inv h2 ih

/-! ## Claims -/

/-- C1: for every committed `CreateTransaction` with source `S`, destination
`D` and amount `a`, the new balance of `S` is its pre-transfer balance minus
`a`, the new balance of `D` is its pre-transfer balance plus `a` (exact
decimal arithmetic), and `balance(S) + balance(D)` is unchanged. -/
theorem createTransaction_balance_conservation
    (env : Env) (now : Int) (st : DBState) (req : CreateTransactionRequest)
    (resp : TransactionResponse) (bs bd : Dec)
    (hok : (CreateTransaction env now st req).1 = .ok resp)
    (hs : lookupAccount st.accounts req.sourceAccountID = some bs)
    (hd : lookupAccount st.accounts req.destinationAccountID = some bd) :
    lookupAccount (CreateTransaction env now st req).2.accounts
        req.sourceAccountID = some (bs - req.amount)
    ∧ lookupAccount (CreateTransaction env now st req).2.accounts
        req.destinationAccountID = some (bd + req.amount)
    ∧ (bs - req.amount) + (bd + req.amount) = bs + bd := by
  obtain ⟨-, hne, -, -, bs2, bd2, hs2, hd2, -, -, hst⟩ :=
    CreateTransaction_ok_spec hok
  rw [hs] at hs2
  rw [hd] at hd2
  obtain rfl : bs = bs2 := Option.some.inj hs2
  obtain rfl : bd = bd2 := Option.some.inj hd2
  rw [hst]
  dsimp only
  have hXd : lookupAccount
      (setBalance st.accounts req.sourceAccountID (bs - req.amount))
      req.destinationAccountID = some bd := by
    rw [lookupAccount_setBalance_ne (Ne.symm hne)]
    exact hd
  refine ⟨?_, ?_, by ring⟩
  · rw [lookupAccount_setBalance_ne hne]
    exact lookupAccount_setBalance_self (by rw [hs]; rfl)
  · exact lookupAccount_setBalance_self (by rw [hXd]; rfl)

/-- Witness for C1: the fault-free transfer of 40 from account 1 (balance 100)
to account 2 (balance 0) leaves balances 60 and 40, conserving the sum. -/
theorem createTransaction_balance_conservation_witness :
    lookupAccount (CreateTransaction Env.happy 7 ⟨[(1, 100), (2, 0)], [], 1⟩
        ⟨1, 2, 40⟩).2.accounts 1 = some (100 - 40)
    ∧ lookupAccount (CreateTransaction Env.happy 7 ⟨[(1, 100), (2, 0)], [], 1⟩
        ⟨1, 2, 40⟩).2.accounts 2 = some (0 + 40)
    ∧ (100 - 40) + (0 + 40) = (100 : Dec) + 0 :=
  createTransaction_balance_conservation Env.happy 7 ⟨[(1, 100), (2, 0)], [], 1⟩
    ⟨1, 2, 40⟩ ⟨1, 1, 2, 40, 7⟩ 100 0 (by with_unfolding_all rfl) (by decide)
    (by decide)

/-- C2: every failing `CreateTransaction` call — at validation or at any step
after its transaction scope is opened (source not found, insufficient
balance, destination not found, balance-update error, record-transfer error,
commit error, rollback error) — leaves the durable state exactly as it was:
both balances keep their pre-transfer values and no partial mutation is
observable. -/
theorem createTransaction_failure_atomicity
    (env : Env) (now : Int) (st : DBState) (req : CreateTransactionRequest)
    (e : Err) (h : (CreateTransaction env now st req).1 = .error e) :
    (CreateTransaction env now st req).2 = st :=
  CreateTransaction_fst_error h

/-- Witness for C2: a transfer of 60 from account 1 holding 50 fails with
`ErrInsufficientBalance` and the state is unchanged. -/
theorem createTransaction_failure_atomicity_witness :
    (CreateTransaction Env.happy 7 ⟨[(1, 50), (2, 0)], [], 1⟩ ⟨1, 2, 60⟩).2
      = ⟨[(1, 50), (2, 0)], [], 1⟩ :=
  createTransaction_failure_atomicity Env.happy 7 ⟨[(1, 50), (2, 0)], [], 1⟩
    ⟨1, 2, 60⟩ (.domain .insufficientBalance) (by with_unfolding_all rfl)

/-- C3: in every reachable state — after any sequence of `CreateAccount`,
`CreateTransaction` and standalone balance-update operations, successful or
failed — every account's balance is non-negative. -/
theorem reachable_balances_nonneg (st : DBState) (h : Reachable st)
    (id : Int) (b : Dec) (hl : lookupAccount st.accounts id = some b) :
    0 ≤ b :=
  (reachable_inv h).1 (id, b) (lookupAccount_mem hl)

/-- Witness for C3: after creating account 1 with balance 100 from the empty
database, its balance is non-negative. -/
theorem reachable_balances_nonneg_witness : (0 : Dec) ≤ 100 :=
  reachable_balances_nonneg (ServiceCreateAccount none initState ⟨1, 100⟩).2
    (Relation.ReflTransGen.single (Step.createAccount initState none ⟨1, 100⟩))
    1 100 (by decide)

/-- C4: when the store operations before the balance check succeed and the
source account exists with balance `bs`, a request for more than `bs` fails
with `ErrInsufficientBalance` (leaving the state unchanged), while a request
for at most `bs` — in particular for exactly the full balance — never fails
with `ErrInsufficientBalance`, under any fault environment for the later
steps. -/
theorem createTransaction_insufficiency_check
    (env : Env) (now : Int) (st : DBState) (req : CreateTransactionRequest)
    (bs : Dec)
    (hpos : 0 < req.amount)
    (hne : req.sourceAccountID ≠ req.destinationAccountID)
    (hb : env.beginErr = none) (hg : env.getSourceErr = none)
    (hr : env.rollbackErr = none)
    (hs : lookupAccount st.accounts req.sourceAccountID = some bs) :
    (bs < req.amount →
      (CreateTransaction env now st req).1 = .error (.domain .insufficientBalance)
      ∧ (CreateTransaction env now st req).2 = st)
    ∧ (req.amount ≤ bs →
      (CreateTransaction env now st req).1
        ≠ .error (.domain .insufficientBalance)) := by
  have hval : Transaction.Validate
      ⟨0, req.sourceAccountID, req.destinationAccountID, req.amount,
        .pending, 0⟩ = none := by
    simp [Transaction.Validate, not_le.mpr hpos, hne]
  have hsrcOK : GetAccountWithTx env.getSourceErr st req.sourceAccountID
      = .ok ⟨req.sourceAccountID, bs⟩ := by
    rw [hg]
    simp [GetAccountWithTx, hs]
  constructor
  · intro hlt
    have hbody : transferBody env now req ⟨0, req.sourceAccountID,
        req.destinationAccountID, req.amount, .pending, 0⟩ st
        = .error (.domain .insufficientBalance) := by
      have hnotsuff : (Account.mk req.sourceAccountID bs).HasSufficientBalance
          req.amount = false := by
        simp [Account.HasSufficientBalance, not_le.mpr hlt]
      simp [transferBody, hsrcOK, hnotsuff]
    have hfst : (CreateTransaction env now st req).1
        = .error (.domain .insufficientBalance) := by
      simp only [CreateTransaction, hval]
      simp [withTransaction, hb, hr, hbody]
    exact ⟨hfst, CreateTransaction_fst_error hfst⟩
  · intro hge hcontra
    simp only [CreateTransaction, hval] at hcontra
    rcases withTransaction_fst_error_cases hcontra with ⟨s, h1⟩ | ⟨s, o, h1⟩
      | ⟨s, h1⟩ | h1
    · simp at h1
    · simp at h1
    · simp at h1
    · exact absurd (transferBody_error_insufficient hg hs h1) (not_lt.mpr hge)

/-- Witness for C4: with source balance 50, a transfer of 60 fails with
`ErrInsufficientBalance` and leaves the state unchanged. -/
theorem createTransaction_insufficiency_check_witness :
    (CreateTransaction Env.happy 7 ⟨[(1, 50), (2, 0)], [], 1⟩ ⟨1, 2, 60⟩).1
      = .error (.domain .insufficientBalance)
    ∧ (CreateTransaction Env.happy 7 ⟨[(1, 50), (2, 0)], [], 1⟩ ⟨1, 2, 60⟩).2
      = ⟨[(1, 50), (2, 0)], [], 1⟩ :=
  (createTransaction_insufficiency_check Env.happy 7 ⟨[(1, 50), (2, 0)], [], 1⟩
    ⟨1, 2, 60⟩ 50 (by decide) (by decide) rfl rfl rfl (by decide)).1 (by decide)

/-- C5 counterexample: a request with `sourceId = destinationId` and
`amount = 0` returns `ErrInvalidAmount`, not `ErrSameAccount`, because
`Validate` checks the amount first — refuting the claim that every request
with `sourceId = destinationId` returns `SameAccount`. -/
theorem validate_precedence_counterexample :
    (CreateTransaction Env.happy 0 initState ⟨1, 1, 0⟩).1
      = .error (.domain .invalidAmount)
    ∧ Err.domain .invalidAmount ≠ Err.domain .sameAccount := by
  constructor
  · with_unfolding_all rfl
  · decide

/-- C5 (amended): a request with `amount ≤ 0` returns `ErrInvalidAmount`; a
request with `amount > 0` and `sourceId = destinationId` returns
`ErrSameAccount`; in both cases the failure is decided before the transaction
scope is opened, no store call is consulted (the result is the same under
every fault environment), and the state is unchanged. -/
theorem validation_failfast
    (env : Env) (now : Int) (st : DBState) (req : CreateTransactionRequest) :
    (req.amount ≤ 0 →
      CreateTransaction env now st req = (.error (.domain .invalidAmount), st))
    ∧ (0 < req.amount → req.sourceAccountID = req.destinationAccountID →
      CreateTransaction env now st req = (.error (.domain .sameAccount), st)) := by
  constructor
  · intro hle
    simp [CreateTransaction, Transaction.Validate, hle]
  · intro hpos heq
    simp [CreateTransaction, Transaction.Validate, not_le.mpr hpos, heq]

/-- Witness for C5 (amended): a zero-amount request fails with
`ErrInvalidAmount` and a positive same-account request fails with
`ErrSameAccount`, both leaving the empty database unchanged. -/
theorem validation_failfast_witness :
    CreateTransaction Env.happy 0 initState ⟨1, 2, 0⟩
      = (.error (.domain .invalidAmount), initState)
    ∧ CreateTransaction Env.happy 0 initState ⟨1, 1, 40⟩
      = (.error (.domain .sameAccount), initState) :=
  ⟨(validation_failfast Env.happy 0 initState ⟨1, 2, 0⟩).1 (by decide),
   (validation_failfast Env.happy 0 initState ⟨1, 1, 40⟩).2 (by decide) rfl⟩

/-- C6 counterexample: a serialization failure reported at commit time on an
otherwise successful transfer of 40 from account 1 to account 2 is surfaced
as the wrapped commit error — not as any sentinel domain error of
`internal/errors`, whose taxonomy has no distinct retryable conflict error. -/
theorem serialization_conflict_counterexample :
    (CreateTransaction Env.conflictAtCommit 7 ⟨[(1, 100), (2, 0)], [], 1⟩
        ⟨1, 2, 40⟩).1
      = .error (.commitFailed (.pq .serializationFailure))
    ∧ Err.isDomain (.commitFailed (.pq .serializationFailure)) = false := by
  constructor
  · with_unfolding_all rfl
  · decide

/-- C6 (amended): a serialization conflict reported by the store at commit
time is surfaced to the caller as the wrapped, non-domain commit error
(`error committing transaction: ...`), the scope's writes are discarded, and
the coordinator performs no retry — the error of the single failed commit
attempt is returned as is.  The code's error taxonomy contains no distinct
`ConflictRetryable` value. -/
theorem serialization_conflict_surfaced
    (env : Env) (now : Int) (st : DBState) (req : CreateTransactionRequest)
    (resp : TransactionResponse) (st1 : DBState)
    (hval : Transaction.Validate ⟨0, req.sourceAccountID,
      req.destinationAccountID, req.amount, .pending, 0⟩ = none)
    (hb : env.beginErr = none)
    (hc : env.commitErr = some (.pq .serializationFailure))
    (hbody : transferBody env now req ⟨0, req.sourceAccountID,
      req.destinationAccountID, req.amount, .pending, 0⟩ st = .ok (resp, st1)) :
    (CreateTransaction env now st req).1
      = .error (.commitFailed (.pq .serializationFailure))
    ∧ (CreateTransaction env now st req).2 = st
    ∧ Err.isDomain (.commitFailed (.pq .serializationFailure)) = false := by
  simp only [CreateTransaction, hval]
  simp [withTransaction, hb, hc, hbody, Err.isDomain]

/-- Witness for C6 (amended): the concrete conflicting transfer of 40 from
account 1 (balance 100) to account 2 (balance 0). -/
theorem serialization_conflict_surfaced_witness :
    (CreateTransaction Env.conflictAtCommit 7 ⟨[(1, 100), (2, 0)], [], 1⟩
        ⟨1, 2, 40⟩).1
      = .error (.commitFailed (.pq .serializationFailure))
    ∧ (CreateTransaction Env.conflictAtCommit 7 ⟨[(1, 100), (2, 0)], [], 1⟩
        ⟨1, 2, 40⟩).2 = ⟨[(1, 100), (2, 0)], [], 1⟩
    ∧ Err.isDomain (.commitFailed (.pq .serializationFailure)) = false :=
  serialization_conflict_surfaced Env.conflictAtCommit 7
    ⟨[(1, 100), (2, 0)], [], 1⟩ ⟨1, 2, 40⟩ ⟨1, 1, 2, 40, 7⟩
    ⟨[(1, 60), (2, 40)], [⟨1, 1, 2, 40, .complete, 7⟩], 2⟩
    (by decide) rfl rfl (by with_unfolding_all rfl)

/-- C7: every successful `CreateTransaction` returns the created transaction
record — its generated id (`st.nextTransactionID`), the request's source
account, destination account and amount, and the `created_at` timestamp —
and that record is the one persisted with status `complete`; on failure an
error is returned instead of a record. -/
theorem createTransfer_returns_created_record
    (env : Env) (now : Int) (st : DBState) (req : CreateTransactionRequest)
    (resp : TransactionResponse)
    (hok : (CreateTransaction env now st req).1 = .ok resp) :
    resp = ⟨st.nextTransactionID, req.sourceAccountID,
            req.destinationAccountID, req.amount, now⟩
    ∧ (CreateTransaction env now st req).2.transactions
        = st.transactions ++ [⟨resp.id, resp.sourceAccountID,
            resp.destinationAccountID, resp.amount, .complete,
            resp.createdAt⟩] := by
  obtain ⟨-, -, -, -, bs, bd, -, -, -, hresp, hst⟩ :=
    CreateTransaction_ok_spec hok
  subst hresp
  refine ⟨rfl, ?_⟩
  rw [hst]

/-- Witness for C7: the fault-free transfer of 40 from account 1 to account 2
returns the record with id 1, the request's endpoints and amount, and the
insert timestamp. -/
theorem createTransfer_returns_created_record_witness :
    (⟨1, 1, 2, 40, 7⟩ : TransactionResponse) = ⟨1, 1, 2, 40, 7⟩
    ∧ (CreateTransaction Env.happy 7 ⟨[(1, 100), (2, 0)], [], 1⟩
        ⟨1, 2, 40⟩).2.transactions
      = [] ++ [⟨1, 1, 2, 40, .complete, 7⟩] :=
  createTransfer_returns_created_record Env.happy 7 ⟨[(1, 100), (2, 0)], [], 1⟩
    ⟨1, 2, 40⟩ ⟨1, 1, 2, 40, 7⟩ (by with_unfolding_all rfl)

/-- C8 counterexample: with account 1 existing, `CreateAccount(1, -1)` returns
`ErrInvalidAmount` — not `ErrAccountAlreadyExists` — because the negative
initial balance is rejected first, refuting the claim for every
initial-balance argument. -/
theorem createAccount_negative_balance_counterexample :
    (lookupAccount (⟨[(1, 100)], [], 1⟩ : DBState).accounts 1).isSome = true
    ∧ (ServiceCreateAccount none ⟨[(1, 100)], [], 1⟩ ⟨1, -1⟩).1
        = .error (.domain .invalidAmount)
    ∧ Err.domain .invalidAmount ≠ Err.domain .accountAlreadyExists := by
  refine ⟨by decide, ?_, by decide⟩
  with_unfolding_all rfl

/-- C8 (amended): creating an account whose id already exists returns
`ErrAccountAlreadyExists` and never mutates the existing account, for every
non-negative initial balance and however often the call is repeated; a
negative initial balance is instead rejected with `ErrInvalidAmount` before
any I/O, also leaving the state unchanged. -/
theorem createAccount_duplicate_rejection
    (st : DBState) (req : CreateAccountRequest)
    (hex : (lookupAccount st.accounts req.accountID).isSome)
    (hnn : 0 ≤ req.initialBalance) :
    ServiceCreateAccount none st req
      = (.error (.domain .accountAlreadyExists), st)
    ∧ (∀ n, repeatCreateAccount none req n st = st)
    ∧ ∀ b : Dec, b < 0 →
        ServiceCreateAccount none st ⟨req.accountID, b⟩
          = (.error (.domain .invalidAmount), st) := by
  have h1 : ServiceCreateAccount none st req
      = (.error (.domain .accountAlreadyExists), st) := by
    simp [ServiceCreateAccount, CreateAccount, not_lt.mpr hnn, hex]
  refine ⟨h1, ?_, ?_⟩
  · intro n
    induction n with
    | zero => rfl
    | succ n ih =>
      simp only [repeatCreateAccount, h1]
      exact ih
  · intro b hb
    simp [ServiceCreateAccount, hb]

/-- Witness for C8 (amended): repeated duplicate creations of account 1 with
balance 5 all fail with `ErrAccountAlreadyExists` and leave the table
unchanged. -/
theorem createAccount_duplicate_rejection_witness :
    ServiceCreateAccount none ⟨[(1, 100)], [], 1⟩ ⟨1, 5⟩
      = (.error (.domain .accountAlreadyExists), ⟨[(1, 100)], [], 1⟩)
    ∧ repeatCreateAccount none ⟨1, 5⟩ 3 ⟨[(1, 100)], [], 1⟩
      = ⟨[(1, 100)], [], 1⟩ :=
  ⟨(createAccount_duplicate_rejection ⟨[(1, 100)], [], 1⟩ ⟨1, 5⟩ (by decide)
      (by decide)).1,
   (createAccount_duplicate_rejection ⟨[(1, 100)], [], 1⟩ ⟨1, 5⟩ (by decide)
      (by decide)).2.1 3⟩

/-- C9: no reachable state contains a persisted transaction with status
`pending` or `failed` — every persisted row is `complete` with positive
amount and distinct endpoints — and per call the `transactions` table grows
by exactly the one `complete` record of a successful transfer, or not at
all on failure. -/
theorem persisted_transactions_invariant
    (st : DBState) (h : Reachable st) :
    (∀ r ∈ st.transactions, r.status = .complete ∧ 0 < r.amount
        ∧ r.sourceAccountID ≠ r.destinationAccountID)
    ∧ ∀ (env : Env) (now : Int) (req : CreateTransactionRequest),
        (∀ resp, (CreateTransaction env now st req).1 = .ok resp →
          (CreateTransaction env now st req).2.transactions
            = st.transactions ++ [⟨st.nextTransactionID, req.sourceAccountID,
                req.destinationAccountID, req.amount, .complete, now⟩])
        ∧ ∀ e, (CreateTransaction env now st req).1 = .error e →
            (CreateTransaction env now st req).2.transactions
              = st.transactions := by
  refine ⟨(reachable_inv h).2, ?_⟩
  intro env now req
  constructor
  · intro resp hok
    obtain ⟨-, -, -, -, bs, bd, -, -, -, -, hst⟩ := CreateTransaction_ok_spec hok
    rw [hst]
  · intro e herr
    rw [CreateTransaction_fst_error herr]

/-- Witness for C9: the single record persisted by the spec's first scenario
is `complete`, has positive amount and distinct endpoints. -/
theorem persisted_transactions_invariant_witness :
    (⟨1, 1, 2, 40, .complete, 7⟩ : TxRecord).status = .complete
    ∧ 0 < (⟨1, 1, 2, 40, .complete, 7⟩ : TxRecord).amount
    ∧ (⟨1, 1, 2, 40, .complete, 7⟩ : TxRecord).sourceAccountID
        ≠ (⟨1, 1, 2, 40, .complete, 7⟩ : TxRecord).destinationAccountID := by
  have hre : Reachable scenario1State :=
    Relation.ReflTransGen.tail (Relation.ReflTransGen.tail
      (Relation.ReflTransGen.single (Step.createAccount initState none ⟨1, 100⟩))
      (Step.createAccount (ServiceCreateAccount none initState ⟨1, 100⟩).2
        none ⟨2, 0⟩))
      (Step.createTransaction (ServiceCreateAccount none
        (ServiceCreateAccount none initState ⟨1, 100⟩).2 ⟨2, 0⟩).2
        Env.happy 7 ⟨1, 2, 40⟩)
  have hmem : (⟨1, 1, 2, 40, .complete, 7⟩ : TxRecord)
      ∈ scenario1State.transactions := by
    have htx : scenario1State.transactions = [⟨1, 1, 2, 40, .complete, 7⟩] := by
      with_unfolding_all rfl
    rw [htx]
    exact List.mem_singleton_self _
  exact (persisted_transactions_invariant scenario1State hre).1 _ hmem

/-- C10: for two concurrent transfers of 60 each from account 1 (balance 100)
to the distinct destinations 2 and 3, every outcome the serializable store
can produce — either serial order, or one side aborted with a serialization
conflict — has exactly one transfer committing while the other fails with
the insufficient-balance error or the surfaced serialization conflict, and
the final source balance is exactly 40, never negative. -/
theorem concurrent_transfers_scenario
    (o : Except Err TransactionResponse × Except Err TransactionResponse × DBState)
    (ho : o ∈ concurrentOutcomes 7 ⟨[(1, 100), (2, 0), (3, 0)], [], 1⟩
      ⟨1, 2, 60⟩ ⟨1, 3, 60⟩) :
    ((committed o.1 = true ∧ insufficientOrConflict o.2.1 = true)
      ∨ (committed o.2.1 = true ∧ insufficientOrConflict o.1 = true))
    ∧ lookupAccount o.2.2.accounts 1 = some 40
    ∧ (0 : Dec) ≤ 40 := by
  simp only [concurrentOutcomes, List.mem_cons, List.mem_singleton,
    List.not_mem_nil, or_false] at ho
  rcases ho with rfl | rfl | rfl | rfl
  · exact ⟨Or.inl ⟨by with_unfolding_all rfl, by with_unfolding_all rfl⟩,
      by with_unfolding_all rfl, by decide⟩
  · exact ⟨Or.inr ⟨by with_unfolding_all rfl, by with_unfolding_all rfl⟩,
      by with_unfolding_all rfl, by decide⟩
  · exact ⟨Or.inr ⟨by with_unfolding_all rfl, by with_unfolding_all rfl⟩,
      by with_unfolding_all rfl, by decide⟩
  · exact ⟨Or.inl ⟨by with_unfolding_all rfl, by with_unfolding_all rfl⟩,
      by with_unfolding_all rfl, by decide⟩

/-- Witness for C10: the serial order in which the transfer to account 2 runs
first — it commits, the transfer to account 3 fails with
`ErrInsufficientBalance`, and account 1 ends at balance 40. -/
theorem concurrent_transfers_scenario_witness :
    ((committed (Except.ok (⟨1, 1, 2, 60, 7⟩ : TransactionResponse)) = true
      ∧ insufficientOrConflict
          (.error (.domain .insufficientBalance)) = true)
     ∨ (committed (Except.error (Err.domain .insufficientBalance)) = true
      ∧ insufficientOrConflict
          (.ok (⟨1, 1, 2, 60, 7⟩ : TransactionResponse)) = true))
    ∧ lookupAccount (⟨[(1, 40), (2, 60), (3, 0)],
        [⟨1, 1, 2, 60, .complete, 7⟩], 2⟩ : DBState).accounts 1 = some 40
    ∧ (0 : Dec) ≤ 40 :=
  concurrent_transfers_scenario
    (.ok ⟨1, 1, 2, 60, 7⟩, .error (.domain .insufficientBalance),
      ⟨[(1, 40), (2, 60), (3, 0)], [⟨1, 1, 2, 60, .complete, 7⟩], 2⟩)
    (by with_unfolding_all exact List.Mem.head _)

end Transfers
